import Mathlib

/-!
Verification development for the Bear chess-engine core (C sources under
`src/`): board model and FEN setup (`board.c`), pseudo-legal move
generation (`movegen.c`), the transposition table (`transposition.c`),
the quiescence stub (`search.c`), static evaluation (`evaluate.c`), and a
spec-modelled make/unmake pair (declared and called in `uci.c` but not
defined in the sources).

Squares use the 120-cell mailbox layout of `defs.h`: index
`(rank + 2) * 10 + (file + 1)` for 0-based rank and file, so the playable
8x8 region is rows 2..9, columns 1..8.  Machine integers of the C code are
modelled as `Int` (for signed quantities: squares, scores, clocks) and
`Nat` (for piece codes, bitmasks, the 64-bit position key).
-/

namespace Bear

/-! ## Piece codes, colors and constants (`defs.h`) -/

def BOARD_SIZE : Nat := 120

def WHITE : Nat := 0
def BLACK : Nat := 1
def BOTH : Nat := 2

def EMPTY : Nat := 0
def W_PAWN : Nat := 1
def W_KNIGHT : Nat := 2
def W_BISHOP : Nat := 3
def W_ROOK : Nat := 4
def W_QUEEN : Nat := 5
def W_KING : Nat := 6
def B_PAWN : Nat := 7
def B_KNIGHT : Nat := 8
def B_BISHOP : Nat := 9
def B_ROOK : Nat := 10
def B_QUEEN : Nat := 11
def B_KING : Nat := 12

/-- Castling-right bits (`board.c` lines 25-28): white kingside, white
queenside, black kingside, black queenside. -/
def WKCA : Nat := 1

def WQCA : Nat := 2

def BKCA : Nat := 4

def BQCA : Nat := 8

/-! ## The Board structure (`board.h`)

`pieces` is the 120-entry mailbox array (piece code per cell), `side` the
side to move, `enPas` the en-passant cell or `-1`, `fiftyMove` the
halfmove clock, `ply`/`hisPly` the search and game ply counters,
`castlePerm` the castling-rights bitmask and `positionKey` the 64-bit
Zobrist fingerprint (`unsigned long long` in C, modelled as `Nat`). -/

@[ext]
structure Board where
  pieces : List Nat
  side : Nat
  enPas : Int
  fiftyMove : Int
  ply : Int
  hisPly : Int
  castlePerm : Nat
  positionKey : Nat
deriving DecidableEq, Repr

/-- Conversion of 0-based file and rank to the 120-based mailbox index
(`FRTo120` in `board.c`, `FR2SQ` in `defs.h`). -/
def FRTo120 (file rank : Int) : Int :=
  (rank + 2) * 10 + (file + 1)

/-- Mapping of a FEN character to a piece code (`CharToPiece`, `board.c`). -/
def CharToPiece (c : Char) : Nat :=
  if c = 'P' then W_PAWN
  else if c = 'N' then W_KNIGHT
  else if c = 'B' then W_BISHOP
  else if c = 'R' then W_ROOK
  else if c = 'Q' then W_QUEEN
  else if c = 'K' then W_KING
  else if c = 'p' then B_PAWN
  else if c = 'n' then B_KNIGHT
  else if c = 'b' then B_BISHOP
  else if c = 'r' then B_ROOK
  else if c = 'q' then B_QUEEN
  else if c = 'k' then B_KING
  else EMPTY

/-- The board state produced by `InitBoard` (`board.c` lines 65-79): all
cells empty, white to move, no en passant, zero clocks, no castling
rights, zero position key. -/
def initState : Board :=
  { pieces := List.replicate BOARD_SIZE EMPTY
    side := WHITE
    enPas := -1
    fiftyMove := 0
    ply := 0
    hisPly := 0
    castlePerm := 0
    positionKey := 0 }

/-- `InitBoard` (`board.c`): writes every field of the passed board,
so the result is `initState` regardless of the previous contents. -/
def InitBoard (_b : Board) : Board := initState

/-! ## FEN parsing (`SetFen`, `board.c` lines 95-200)

The C parser copies at most 255 characters of the input (`strncpy`),
tokenizes on spaces (`strtok`), and consumes the six FEN fields strictly
left to right, returning as soon as a field is missing.  FEN text is
modelled as `List Char`; a NULL `const char*` argument is modelled as
`none`. -/

/-- Tokenisation on the space character exactly as successive
`strtok(..., " ")` calls produce it: maximal runs of non-space
characters, in order, with no empty tokens. -/
def tokenize : List Char → List Char → List (List Char)
  | [], cur => if cur = [] then [] else [cur.reverse]
  | c :: rest, cur =>
    if c = ' ' then
      if cur = [] then tokenize rest [] else cur.reverse :: tokenize rest []
    else tokenize rest (c :: cur)

/-- Piece-placement loop of `SetFen` (field 1): walks the characters while
the rank is still nonnegative; a digit advances the file by its value, a
slash moves to the next rank, and a piece character is placed at
`FRTo120 file rank` only when it maps to a real piece and `file < 8`. -/
def placeLoop : List Char → Int → Int → List Nat → List Nat
  | [], _, _, ps => ps
  | c :: rest, rank, file, ps =>
    if rank < 0 then ps
    else if c.isDigit then placeLoop rest rank (file + ((c.toNat : Int) - 48)) ps
    else if c = '/' then placeLoop rest (rank - 1) 0 ps
    else
      let piece := CharToPiece c
      if piece ≠ EMPTY ∧ file < 8 then
        placeLoop rest rank (file + 1) (ps.set (FRTo120 file rank).toNat piece)
      else placeLoop rest rank file ps

/-- Digit-accumulation part of C `atoi`: consumes decimal digits until a
non-digit appears. -/
def atoiDigits : List Char → Int → Int
  | [], acc => acc
  | c :: rest, acc =>
    if c.isDigit then atoiDigits rest (acc * 10 + ((c.toNat : Int) - 48)) else acc

/-- Model of C `atoi` as applied to a `strtok` token (which never contains
whitespace): an optional sign followed by leading decimal digits. -/
def atoiModel (s : List Char) : Int :=
  match s with
  | '-' :: rest => - atoiDigits rest 0
  | '+' :: rest => atoiDigits rest 0
  | l => atoiDigits l 0

/-- Token list that `SetFen` consumes: `strtok` tokens of the first 255
characters (the `strncpy` truncation). -/
def fenTokens (cs : List Char) : List (List Char) :=
  tokenize (cs.take 255) []

/-- Side-to-move field (field 2): white exactly when the token starts
with `w` or `W`, black otherwise. -/
def parseSide (t : List Char) : Nat :=
  if t.headD ' ' = 'w' ∨ t.headD ' ' = 'W' then WHITE else BLACK

/-- Castling-availability field (field 3): if the token does not start
with `-`, each of `K`, `Q`, `k`, `q` occurring anywhere in the token
(`strchr`) contributes its bit. -/
def parseCastle (t : List Char) : Nat :=
  if t.headD ' ' ≠ '-' then
    (if t.contains 'K' then WKCA else 0) |||
    (if t.contains 'Q' then WQCA else 0) |||
    (if t.contains 'k' then BKCA else 0) |||
    (if t.contains 'q' then BQCA else 0)
  else 0

/-- En-passant field (field 4): `-` means no en-passant cell, otherwise
the first two characters are read as file letter and rank digit.  The C
code reads `token[1]` unconditionally, so a one-character token reads the
NUL terminator, modelled as `Char` code 0. -/
def parseEnPas (t : List Char) : Int :=
  if t.headD ' ' = '-' then -1
  else
    let file : Int := (t.headD ' ').toNat - 97
    let rank : Int := ((t.drop 1).headD ⟨0, by decide⟩).toNat - 49
    FRTo120 file rank

/-- `SetFen` (`board.c` lines 95-200): reset the board with `InitBoard`,
return immediately on a NULL or empty string, otherwise tokenize (after
the 255-character `strncpy` truncation) and apply the six FEN fields
strictly left to right, stopping at the first missing token. -/
def SetFen (b : Board) (fen : Option (List Char)) : Board :=
  let d := InitBoard b
  match fen with
  | none => d
  | some cs =>
    if cs.length < 1 then d
    else
      match fenTokens cs with
      | [] => d
      | t1 :: rest1 =>
        let b1 := { d with pieces := placeLoop t1 7 0 d.pieces }
        match rest1 with
        | [] => b1
        | t2 :: rest2 =>
          let b2 := { b1 with side := parseSide t2 }
          match rest2 with
          | [] => b2
          | t3 :: rest3 =>
            let b3 := { b2 with castlePerm := parseCastle t3 }
            match rest3 with
            | [] => b3
            | t4 :: rest4 =>
              let b4 := { b3 with enPas := parseEnPas t4 }
              match rest4 with
              | [] => b4
              | t5 :: rest5 =>
                let b5 := { b4 with fiftyMove := atoiModel t5 }
                match rest5 with
                | [] => b5
                | t6 :: _ =>
                  let hp := (atoiModel t6 - 1) * 2
                  { b5 with hisPly := if b5.side = BLACK then hp + 1 else hp }

/-- The standard starting position, loaded through `SetFen` exactly as the
engine's host would provide it. -/
def startBoard : Board :=
  SetFen initState
    (some ("rnbqkbnr/pppppppp/8/8/8/8/PPPPPPPP/RNBQKBNR w KQkq - 0 1").toList)

/-! ## Moves and move generation (`movegen.c`, `movegen.h`)

A `Move` is the value type of `movegen.h`: source cell, target cell,
captured piece code, promoted piece code, and the special-move flag
bitmask (`1 <<< 0` en passant, `1 <<< 1` double pawn push, `1 <<< 2`
castling, `1 <<< 3` promotion).  The C fields `from`/`to` are named
`fromSq`/`toSq` because `from` is a Lean keyword.  The C code fills a
caller-provided array via `AddMove` and returns a count; the model
returns the generated moves as a list in the same order. -/

/-- Move value type (`movegen.h` lines 36-42). -/
@[ext]
structure Move where
  fromSq : Int
  toSq : Int
  captured : Nat
  promoted : Nat
  flag : Nat
deriving DecidableEq, Repr

/-- Direction offsets for the knight (`KnightOffsets`, `movegen.c`). -/
def KnightOffsets : List Int := [-21, -19, -12, -8, 8, 12, 19, 21]

/-- Direction offsets for the king (`KingOffsets`, `movegen.c`). -/
def KingOffsets : List Int := [-9, -11, 9, 11, -10, 10, -1, 1]

/-- Direction offsets for the rook (`RookOffsets`, `movegen.c`). -/
def RookOffsets : List Int := [-10, 10, -1, 1]

/-- Direction offsets for the bishop (`BishopOffsets`, `movegen.c`). -/
def BishopOffsets : List Int := [-9, -11, 9, 11]

/-- `IsOnBoard` (`movegen.c` lines 44-46): accepts every index of the
120-cell array, `0 <= sq < BOARD_SIZE`, including the border cells. -/
def IsOnBoard (sq : Int) : Bool :=
  0 ≤ sq ∧ sq < (BOARD_SIZE : Int)

/-- `PieceColor` (`movegen.c` lines 52-60): white for codes 1..6, black
for 7..12, `BOTH` otherwise. -/
def PieceColor (piece : Nat) : Nat :=
  if W_PAWN ≤ piece ∧ piece ≤ W_KING then WHITE
  else if B_PAWN ≤ piece ∧ piece ≤ B_KING then BLACK
  else BOTH

/-- Occupant of a mailbox cell.  Every use is guarded by `IsOnBoard`, so
the `Int.toNat` cast and the `getD` default are never exercised on a
valid board. -/
def pieceAt (b : Board) (sq : Int) : Nat :=
  b.pieces.getD sq.toNat EMPTY

/-- Promotion pieces in the order the C code adds them (queen, rook,
bishop, knight) for the given side. -/
def promoPieces (side : Nat) : List Nat :=
  if side = WHITE then [W_QUEEN, W_ROOK, W_BISHOP, W_KNIGHT]
  else [B_QUEEN, B_ROOK, B_BISHOP, B_KNIGHT]

/-- Forward (non-capture) pawn moves from cell `sq`: single push with
promotion branching, then the double push from the initial rank when both
cells ahead are empty (`PawnMoves`, `movegen.c` lines 98-156). -/
def pawnForward (b : Board) (sq : Int) : List Move :=
  let side := b.side
  let rankDirection : Int := if side = WHITE then 10 else -10
  let forwardSq := sq + rankDirection
  if IsOnBoard forwardSq ∧ pieceAt b forwardSq = EMPTY then
    let rank := forwardSq / 10 - 2
    let isPromotion := (side = WHITE ∧ rank = 7) ∨ (side = BLACK ∧ rank = 0)
    let pushes :=
      if isPromotion then
        (promoPieces side).map fun pp => ⟨sq, forwardSq, EMPTY, pp, 1 <<< 3⟩
      else [⟨sq, forwardSq, EMPTY, EMPTY, 0⟩]
    let onInitialRank :=
      if side = WHITE then sq / 10 - 2 = 1 else sq / 10 - 2 = 6
    let doubles :=
      if onInitialRank then
        let doubleForward := forwardSq + rankDirection
        if IsOnBoard doubleForward ∧ pieceAt b doubleForward = EMPTY then
          [⟨sq, doubleForward, EMPTY, EMPTY, 1 <<< 1⟩]
        else []
      else []
    pushes ++ doubles
  else []

/-- Diagonal pawn moves through offset `capOff`: a capture (with
promotion branching) when the target holds an enemy piece, followed by an
en-passant capture when the target equals the board's en-passant cell
(`PawnMoves`, `movegen.c` lines 158-210). -/
def pawnCapturesDir (b : Board) (sq capOff : Int) : List Move :=
  let side := b.side
  let cap := sq + capOff
  if IsOnBoard cap then
    let capturedPiece := pieceAt b cap
    let capMoves :=
      if capturedPiece ≠ EMPTY ∧ PieceColor capturedPiece ≠ side then
        let rank := cap / 10 - 2
        if (side = WHITE ∧ rank = 7) ∨ (side = BLACK ∧ rank = 0) then
          (promoPieces side).map fun pp => ⟨sq, cap, capturedPiece, pp, 1 <<< 3⟩
        else [⟨sq, cap, capturedPiece, EMPTY, 0⟩]
      else []
    let epMoves :=
      if cap = b.enPas then
        [⟨sq, cap, (if side = WHITE then B_PAWN else W_PAWN), EMPTY, 1 <<< 0⟩]
      else []
    capMoves ++ epMoves
  else []

/-- `PawnMoves` (`movegen.c` lines 84-213): for each pawn of the side to
move, forward pushes (skipped in captures-only mode) and the two diagonal
capture directions. -/
def PawnMoves (b : Board) (capturesOnly : Bool) : List Move :=
  let side := b.side
  let pawn := if side = WHITE then W_PAWN else B_PAWN
  let leftCapture : Int := if side = WHITE then 9 else -11
  let rightCapture : Int := if side = WHITE then 11 else -9
  (List.range BOARD_SIZE).flatMap fun n =>
    if b.pieces.getD n EMPTY = pawn then
      let sq : Int := n
      (if capturesOnly then [] else pawnForward b sq) ++
        pawnCapturesDir b sq leftCapture ++ pawnCapturesDir b sq rightCapture
    else []

/-- One direction of a sliding walk (`GenerateSlidingMoves` inner loop,
`movegen.c` lines 227-247): advance while still inside the array, adding
quiet moves on empty cells (unless captures-only) and a capture when an
enemy piece is hit, then stop.  The C `while` loop moves at least one
index per step and therefore terminates within `BOARD_SIZE` iterations;
the fuel parameter (always called with 200) makes that bound explicit. -/
def slideDir (b : Board) (myColor : Nat) (f dir : Int) (capturesOnly : Bool) :
    Nat → Int → List Move
  | 0, _ => []
  | fuel + 1, tsq =>
    if IsOnBoard tsq then
      let targetPiece := pieceAt b tsq
      if targetPiece = EMPTY then
        (if !capturesOnly then [(⟨f, tsq, EMPTY, EMPTY, 0⟩ : Move)] else []) ++
          slideDir b myColor f dir capturesOnly fuel (tsq + dir)
      else if PieceColor targetPiece ≠ myColor then
        [⟨f, tsq, targetPiece, EMPTY, 0⟩]
      else []
    else []

/-- `GenerateSlidingMoves` (`movegen.c` lines 221-250): for every cell
holding `piece`, walk each direction of `directions`. -/
def GenerateSlidingMoves (b : Board) (piece : Nat) (directions : List Int)
    (capturesOnly : Bool) : List Move :=
  (List.range BOARD_SIZE).flatMap fun n =>
    if b.pieces.getD n EMPTY = piece then
      directions.flatMap fun dir =>
        slideDir b (PieceColor piece) n dir capturesOnly 200 ((n : Int) + dir)
    else []

/-- `GenerateLeaperMoves` (`movegen.c` lines 258-281): for every cell
holding `piece`, test each offset once, moving to empty cells (unless
captures-only) and capturing enemy pieces. -/
def GenerateLeaperMoves (b : Board) (piece : Nat) (offsets : List Int)
    (capturesOnly : Bool) : List Move :=
  (List.range BOARD_SIZE).flatMap fun n =>
    if b.pieces.getD n EMPTY = piece then
      offsets.flatMap fun off =>
        let tsq := (n : Int) + off
        if IsOnBoard tsq then
          let targetPiece := pieceAt b tsq
          if targetPiece = EMPTY then
            if !capturesOnly then [(⟨n, tsq, EMPTY, EMPTY, 0⟩ : Move)] else []
          else if PieceColor targetPiece ≠ PieceColor piece then
            [⟨n, tsq, targetPiece, EMPTY, 0⟩]
          else []
        else []
    else []

/-- `GenerateCastling` (`movegen.c` lines 290-302): the C function body
contains only comments sketching the intended checks and never calls
`AddMove`, so it contributes no moves for either side. -/
def GenerateCastling (_b : Board) (_capturesOnly : Bool) : List Move := []

/-- `GenerateAllMoves` (`movegen.c` lines 309-337): pawn moves, then
knight, bishop, rook, queen (diagonal then straight), king, then
castling, in generation order. -/
def GenerateAllMoves (b : Board) : List Move :=
  PawnMoves b false ++
    (if b.side = WHITE then
      GenerateLeaperMoves b W_KNIGHT KnightOffsets false ++
        GenerateSlidingMoves b W_BISHOP BishopOffsets false ++
        GenerateSlidingMoves b W_ROOK RookOffsets false ++
        GenerateSlidingMoves b W_QUEEN BishopOffsets false ++
        GenerateSlidingMoves b W_QUEEN RookOffsets false ++
        GenerateLeaperMoves b W_KING KingOffsets false
    else
      GenerateLeaperMoves b B_KNIGHT KnightOffsets false ++
        GenerateSlidingMoves b B_BISHOP BishopOffsets false ++
        GenerateSlidingMoves b B_ROOK RookOffsets false ++
        GenerateSlidingMoves b B_QUEEN BishopOffsets false ++
        GenerateSlidingMoves b B_QUEEN RookOffsets false ++
        GenerateLeaperMoves b B_KING KingOffsets false) ++
    GenerateCastling b false

/-- `GenerateCaptures` (`movegen.c` lines 344-366): the captures-only
variant of `GenerateAllMoves`, without the castling call. -/
def GenerateCaptures (b : Board) : List Move :=
  PawnMoves b true ++
    (if b.side = WHITE then
      GenerateLeaperMoves b W_KNIGHT KnightOffsets true ++
        GenerateSlidingMoves b W_BISHOP BishopOffsets true ++
        GenerateSlidingMoves b W_ROOK RookOffsets true ++
        GenerateSlidingMoves b W_QUEEN BishopOffsets true ++
        GenerateSlidingMoves b W_QUEEN RookOffsets true ++
        GenerateLeaperMoves b W_KING KingOffsets true
    else
      GenerateLeaperMoves b B_KNIGHT KnightOffsets true ++
        GenerateSlidingMoves b B_BISHOP BishopOffsets true ++
        GenerateSlidingMoves b B_ROOK RookOffsets true ++
        GenerateSlidingMoves b B_QUEEN BishopOffsets true ++
        GenerateSlidingMoves b B_QUEEN RookOffsets true ++
        GenerateLeaperMoves b B_KING KingOffsets true)

/-- One attack ray for `IsSquareAttacked` (`movegen.c` lines 405-435):
walk a direction until the first occupied cell; report an attack exactly
when that occupant is one of `targets`.  Fuel as in `slideDir`. -/
def attackRay (b : Board) (dir : Int) (targets : List Nat) :
    Nat → Int → Bool
  | 0, _ => false
  | fuel + 1, tsq =>
    if IsOnBoard tsq then
      let piece := pieceAt b tsq
      if piece ≠ EMPTY then targets.contains piece
      else attackRay b dir targets fuel (tsq + dir)
    else false

/-- `IsSquareAttacked` (`movegen.c` lines 378-449): pawn geometry, knight
leaps, diagonal bishop/queen rays, straight rook/queen rays, adjacent
king cells. -/
def IsSquareAttacked (b : Board) (square : Int) (side : Nat) : Bool :=
  let pawnHits :=
    if side = WHITE then
      (IsOnBoard (square - 9) && pieceAt b (square - 9) = W_PAWN) ||
        (IsOnBoard (square - 11) && pieceAt b (square - 11) = W_PAWN)
    else
      (IsOnBoard (square + 9) && pieceAt b (square + 9) = B_PAWN) ||
        (IsOnBoard (square + 11) && pieceAt b (square + 11) = B_PAWN)
  let knightHits := KnightOffsets.any fun off =>
    IsOnBoard (square + off) &&
      pieceAt b (square + off) = (if side = WHITE then W_KNIGHT else B_KNIGHT)
  let diagHits := BishopOffsets.any fun dir =>
    attackRay b dir
      (if side = WHITE then [W_BISHOP, W_QUEEN] else [B_BISHOP, B_QUEEN])
      200 (square + dir)
  let straightHits := RookOffsets.any fun dir =>
    attackRay b dir
      (if side = WHITE then [W_ROOK, W_QUEEN] else [B_ROOK, B_QUEEN])
      200 (square + dir)
  let kingHits := KingOffsets.any fun off =>
    IsOnBoard (square + off) &&
      pieceAt b (square + off) = (if side = WHITE then W_KING else B_KING)
  pawnHits || knightHits || diagHits || straightHits || kingHits

/-- A cell of the playable 8x8 region of the mailbox: rows 2..9, columns
1..8 (`defs.h` layout comment). -/
def playableSq (sq : Int) : Bool :=
  21 ≤ sq ∧ sq ≤ 98 ∧ 1 ≤ sq % 10 ∧ sq % 10 ≤ 8

/-- A board whose pieces all lie inside the playable 8x8 region: every
border cell is empty. -/
def piecesPlayable (b : Board) : Bool :=
  (List.range BOARD_SIZE).all fun n =>
    playableSq n || b.pieces.getD n EMPTY = EMPTY

/-! ## Transposition table (`transposition.h`, `transposition.c`)

The C table is a `calloc`-allocated array of `TTEntry` plus a separately
stored `numEntries`; allocation failure leaves `entries == NULL` and
`numEntries == 0`.  The model keeps the entries as a list, with
`entries.length` playing the role of `numEntries` (the two are always
equal in the C code), and `entries = []` playing the role of the NULL
array.  `calloc` zero-fills, so a fresh slot is the all-zero entry and
`StoreHashEntry` detects an empty slot by `key == 0`. -/

/-- The all-zero move, as produced by zero-filled memory. -/
def zeroMove : Move := ⟨0, 0, 0, 0, 0⟩

/-- Transposition entry (`transposition.h` lines 42-49). -/
@[ext]
structure TTEntry where
  key : Nat
  depth : Int
  score : Int
  flag : Int
  bestMove : Move
  age : Int
deriving DecidableEq, Repr

/-- The zero-filled entry a fresh `calloc` slot holds. -/
def zeroEntry : TTEntry := ⟨0, 0, 0, 0, zeroMove, 0⟩

/-- Transposition table (`transposition.h` lines 58-63); `numEntries` is
`entries.length`. -/
@[ext]
structure TransTable where
  entries : List TTEntry
  newWrite : Int
  age : Int
deriving DecidableEq, Repr

/-- `InitTranspositionTable` (`transposition.c` lines 27-38).  The
success of the `calloc` call is the `allocOk` parameter: on success the
table holds `size` zero-filled entries with `newWrite` and `age` reset;
on failure the function prints an error, zeroes `numEntries` and returns,
leaving `newWrite` and `age` untouched. -/
def InitTranspositionTable (tt : TransTable) (allocOk : Bool) (size : Nat) :
    TransTable :=
  if allocOk then
    { entries := List.replicate size zeroEntry, newWrite := 0, age := 0 }
  else
    { entries := [], newWrite := tt.newWrite, age := tt.age }

/-- `StoreHashEntry` (`transposition.c` lines 62-87): no-op on an
unallocated table; otherwise index by `key % numEntries` and overwrite
exactly when the slot is zero-keyed, holds the same key, or holds a depth
not exceeding the incoming depth. -/
def StoreHashEntry (tt : TransTable) (key : Nat) (depth score flag : Int)
    (bestMove : Move) : TransTable :=
  if tt.entries.length = 0 then tt
  else
    let index := key % tt.entries.length
    let entry := tt.entries.getD index zeroEntry
    if entry.key = 0 ∨ entry.key = key ∨ depth ≥ entry.depth then
      { tt with
        entries := tt.entries.set index ⟨key, depth, score, flag, bestMove, tt.age⟩
        newWrite := tt.newWrite + 1 }
    else tt

/-- `ProbeHashEntry` (`transposition.c` lines 95-113): miss on an
unallocated table; otherwise a hit exactly when the indexed slot holds
the probed key with at least the required depth, returning the stored
score and best move. -/
def ProbeHashEntry (tt : TransTable) (key : Nat) (depth : Int) :
    Option (Int × Move) :=
  if tt.entries.length = 0 then none
  else
    let index := key % tt.entries.length
    let entry := tt.entries.getD index zeroEntry
    if entry.key = key ∧ entry.depth ≥ depth then
      some (entry.score, entry.bestMove)
    else none

/-! ## Static evaluation (`evaluate.c`) and the quiescence stub (`search.c`)

`EvaluatePosition` sums material values plus piece-square-table bonuses
over the playable cells, with black using the rank-mirrored white tables,
plus a bishop-pair bonus per side.  The C source writes the black PST
lookups as `PawnPST[Mirror64(pstIndex]]` (and likewise for the other
pieces), a bracket typo for `PawnPST[Mirror64(pstIndex)]`; the model uses
that evident intended indexing. -/

/-- White pawn piece-square table (`PawnPST`, `evaluate.c`). -/
def PawnPST : List Int :=
  [0, 0, 0, 0, 0, 0, 0, 0,
   50, 50, 50, 50, 50, 50, 50, 50,
   10, 10, 20, 30, 30, 20, 10, 10,
   5, 5, 10, 25, 25, 10, 5, 5,
   0, 0, 0, 20, 20, 0, 0, 0,
   5, -5, -10, 0, 0, -10, -5, 5,
   5, 10, 10, -20, -20, 10, 10, 5,
   0, 0, 0, 0, 0, 0, 0, 0]

/-- White knight piece-square table (`KnightPST`, `evaluate.c`). -/
def KnightPST : List Int :=
  [-50, -40, -30, -30, -30, -30, -40, -50,
   -40, -20, 0, 0, 0, 0, -20, -40,
   -30, 0, 10, 15, 15, 10, 0, -30,
   -30, 5, 15, 20, 20, 15, 5, -30,
   -30, 0, 15, 20, 20, 15, 0, -30,
   -30, 5, 10, 15, 15, 10, 5, -30,
   -40, -20, 0, 5, 5, 0, -20, -40,
   -50, -40, -30, -30, -30, -30, -40, -50]

/-- White bishop piece-square table (`BishopPST`, `evaluate.c`). -/
def BishopPST : List Int :=
  [-20, -10, -10, -10, -10, -10, -10, -20,
   -10, 5, 0, 0, 0, 0, 5, -10,
   -10, 10, 10, 10, 10, 10, 10, -10,
   -10, 0, 10, 10, 10, 10, 0, -10,
   -10, 5, 5, 10, 10, 5, 5, -10,
   -10, 0, 5, 10, 10, 5, 0, -10,
   -10, 0, 0, 0, 0, 0, 0, -10,
   -20, -10, -10, -10, -10, -10, -10, -20]

/-- White rook piece-square table (`RookPST`, `evaluate.c`). -/
def RookPST : List Int :=
  [0, 0, 0, 5, 5, 0, 0, 0,
   -5, 0, 0, 0, 0, 0, 0, -5,
   -5, 0, 0, 0, 0, 0, 0, -5,
   -5, 0, 0, 0, 0, 0, 0, -5,
   -5, 0, 0, 0, 0, 0, 0, -5,
   -5, 0, 0, 0, 0, 0, 0, -5,
   5, 10, 10, 10, 10, 10, 10, 5,
   0, 0, 0, 0, 0, 0, 0, 0]

/-- White queen piece-square table (`QueenPST`, `evaluate.c`). -/
def QueenPST : List Int :=
  [-20, -10, -10, -5, -5, -10, -10, -20,
   -10, 0, 5, 0, 0, 0, 0, -10,
   -10, 5, 5, 5, 5, 5, 0, -10,
   -5, 0, 5, 5, 5, 5, 0, -5,
   0, 0, 5, 5, 5, 5, 0, -5,
   -10, 5, 5, 5, 5, 5, 0, -10,
   -10, 0, 5, 0, 0, 0, 0, -10,
   -20, -10, -10, -5, -5, -10, -10, -20]

/-- White king piece-square table (`KingPST`, `evaluate.c`). -/
def KingPST : List Int :=
  [-30, -40, -40, -50, -50, -40, -40, -30,
   -30, -40, -40, -50, -50, -40, -40, -30,
   -30, -40, -40, -50, -50, -40, -40, -30,
   -30, -40, -40, -50, -50, -40, -40, -30,
   -20, -30, -30, -40, -40, -30, -30, -20,
   -10, -20, -20, -20, -20, -20, -20, -10,
   20, 20, 0, 0, 0, 0, 20, 20,
   20, 30, 10, 0, 0, 10, 30, 20]

/-- `Sq120ToPSTIndex` (`evaluate.c` lines 105-114): rank times eight plus
file; outside 0..63 for border cells. -/
def Sq120ToPSTIndex (sq : Nat) : Int :=
  ((sq : Int) / 10 - 2) * 8 + ((sq : Int) % 10 - 1)

/-- `Mirror64` (`evaluate.c` lines 122-128) for an in-range index. -/
def Mirror64 (index : Nat) : Nat :=
  (7 - index / 8) * 8 + index % 8

/-- One square's contribution to the evaluation accumulator
(score, white bishop count, black bishop count). -/
def evalStep (b : Board) (acc : Int × Nat × Nat) (sq : Nat) : Int × Nat × Nat :=
  let (score, wB, bB) := acc
  let piece := b.pieces.getD sq EMPTY
  if piece = EMPTY then acc
  else
    let pstIndex := Sq120ToPSTIndex sq
    if pstIndex < 0 ∨ 64 ≤ pstIndex then acc
    else
      let i := pstIndex.toNat
      if piece = W_PAWN then (score + 100 + PawnPST.getD i 0, wB, bB)
      else if piece = W_KNIGHT then (score + 320 + KnightPST.getD i 0, wB, bB)
      else if piece = W_BISHOP then (score + 330 + BishopPST.getD i 0, wB + 1, bB)
      else if piece = W_ROOK then (score + 500 + RookPST.getD i 0, wB, bB)
      else if piece = W_QUEEN then (score + 900 + QueenPST.getD i 0, wB, bB)
      else if piece = W_KING then (score + 20000 + KingPST.getD i 0, wB, bB)
      else if piece = B_PAWN then (score - 100 - PawnPST.getD (Mirror64 i) 0, wB, bB)
      else if piece = B_KNIGHT then (score - 320 - KnightPST.getD (Mirror64 i) 0, wB, bB)
      else if piece = B_BISHOP then (score - 330 - BishopPST.getD (Mirror64 i) 0, wB, bB + 1)
      else if piece = B_ROOK then (score - 500 - RookPST.getD (Mirror64 i) 0, wB, bB)
      else if piece = B_QUEEN then (score - 900 - QueenPST.getD (Mirror64 i) 0, wB, bB)
      else if piece = B_KING then (score - 20000 - KingPST.getD (Mirror64 i) 0, wB, bB)
      else acc

/-- `EvaluatePosition` (`evaluate.c` lines 140-271): material plus
piece-square scores over all cells, then the bishop-pair bonuses.
White-positive convention; the side-to-move sign flip at the end of the C
function is commented out. -/
def EvaluatePosition (b : Board) : Int :=
  let (score, wB, bB) := (List.range BOARD_SIZE).foldl (evalStep b) (0, 0, 0)
  let s1 := if wB ≥ 2 then score + 30 else score
  if bB ≥ 2 then s1 - 30 else s1

/-- `Quiescence` (`search.c` lines 93-110): the function body is a
comment sketching the stand-pat algorithm followed by `return 0;`, so the
implementation returns 0 for every position and window.  The `SearchInfo`
argument of the C signature carries no data the body reads and is
omitted. -/
def Quiescence (_b : Board) (_alpha _beta : Int) : Int := 0

/-! ## State transition engine: make/unmake

Modelled from the spec: `MakeMove`, `unmakeMove`, the `UndoRecord` type
and the incremental-fingerprint keys are declared and called in the
sources (`uci.c` lines 120-131 calls `MakeMove`) but defined nowhere
under `src/`.  The definitions below follow spec sections 3 ("Undo
record") and 4.3 ("State Transition Engine"): `makeMove` applies the
move, flips the side, revokes castling rights when the king or a rook
start cell changes hands, sets the en-passant cell only on a double pawn
push, resets the halfmove clock on pawn moves and captures, and updates
the fingerprint incrementally for every changed cell, rights change,
en-passant change and side change; `unmakeMove` restores the prior state
from the move plus the undo record. -/

/-- Undo record, spec section 3: captured piece, prior castling rights,
prior en-passant cell, prior halfmove clock, prior fingerprint. -/
@[ext]
structure UndoRecord where
  captured : Nat
  castlePerm : Nat
  enPas : Int
  fiftyMove : Int
  positionKey : Nat
deriving DecidableEq, Repr

/-- Modelled from the spec: per-piece-per-cell Zobrist key of the
incremental fingerprint (a fixed 64-bit constant per pair; the concrete
mixing constant is unspecified by the spec). -/
def pieceSqKey (piece sq : Nat) : Nat :=
  ((piece * BOARD_SIZE + sq + 1) * 2654435761) % 2 ^ 64

/-- Modelled from the spec: side-to-move Zobrist key. -/
def sideKey : Nat := 0x9e3779b97f4a7c15

/-- Modelled from the spec: Zobrist key of a castling-rights mask. -/
def castleKey (cp : Nat) : Nat :=
  ((cp + 1) * 0x517cc1b727220a95) % 2 ^ 64

/-- Modelled from the spec: Zobrist key of an en-passant cell (0 when no
cell is set). -/
def epKey (e : Int) : Nat :=
  if 0 ≤ e then ((e.toNat + 1) * 0x2545f4914f6cdd1d) % 2 ^ 64 else 0

/-- Pawn code of a side. -/
def pawnOf (side : Nat) : Nat := if side = WHITE then W_PAWN else B_PAWN

/-- Rook code of a side. -/
def rookOf (side : Nat) : Nat := if side = WHITE then W_ROOK else B_ROOK

/-- Start cell of the rook that participates in a castling move with
king target `to` (g1, c1, g8, c8 in mailbox indices). -/
def rookFromOf (t : Int) : Int :=
  if t = 27 then 28 else if t = 23 then 21 else if t = 97 then 98 else 91

/-- Landing cell of the rook that participates in a castling move with
king target `to`. -/
def rookToOf (t : Int) : Int :=
  if t = 27 then 26 else if t = 23 then 24 else if t = 97 then 96 else 94

/-- Cell of the pawn removed by an en-passant capture with target `to`
made by `side`. -/
def epCapturedSq (t : Int) (side : Nat) : Int :=
  if side = WHITE then t - 10 else t + 10

/-- Castling rights surviving a change at cell `sq`: touching the king or
rook start cells revokes the corresponding rights (spec section 4.3). -/
def castleMaskAt (sq : Int) : Nat :=
  if sq = 21 then 13
  else if sq = 25 then 12
  else if sq = 28 then 14
  else if sq = 91 then 7
  else if sq = 95 then 3
  else if sq = 98 then 11
  else 15

/-- Piece-array part of `makeMove`: clear the source cell, write the
moved (or promoted) piece to the target, and additionally remove the
en-passant-captured pawn or relocate the castling rook. -/
def makeMovePieces (b : Board) (m : Move) : List Nat :=
  let f := m.fromSq.toNat
  let t := m.toSq.toNat
  let movingPiece := b.pieces.getD f EMPTY
  let placed := if m.promoted ≠ EMPTY then m.promoted else movingPiece
  let ps1 := (b.pieces.set f EMPTY).set t placed
  if m.flag &&& 1 ≠ 0 then
    ps1.set (epCapturedSq m.toSq b.side).toNat EMPTY
  else if m.flag &&& 4 ≠ 0 then
    (ps1.set (rookFromOf m.toSq).toNat EMPTY).set (rookToOf m.toSq).toNat (rookOf b.side)
  else ps1

/-- Incremental fingerprint update of `makeMove` (spec section 4.3):
XOR out/in a key for every changed cell, the old and new castling
rights, the old and new en-passant cells, and the side to move. -/
def makeMoveKey (b : Board) (m : Move) (newCastle : Nat) (newEnPas : Int) : Nat :=
  let f := m.fromSq.toNat
  let t := m.toSq.toNat
  let movingPiece := b.pieces.getD f EMPTY
  let placed := if m.promoted ≠ EMPTY then m.promoted else movingPiece
  let capKey :=
    if m.flag &&& 1 ≠ 0 then
      pieceSqKey m.captured (epCapturedSq m.toSq b.side).toNat
    else if m.captured ≠ EMPTY then pieceSqKey m.captured t
    else 0
  let rookKey :=
    if m.flag &&& 4 ≠ 0 then
      pieceSqKey (rookOf b.side) (rookFromOf m.toSq).toNat ^^^
        pieceSqKey (rookOf b.side) (rookToOf m.toSq).toNat
    else 0
  b.positionKey ^^^ pieceSqKey movingPiece f ^^^ pieceSqKey placed t ^^^
    capKey ^^^ rookKey ^^^ castleKey b.castlePerm ^^^ castleKey newCastle ^^^
    epKey b.enPas ^^^ epKey newEnPas ^^^ sideKey

/-- Modelled from the spec (section 4.3): `makeMove(position, move)`
applies the move and returns the undo record holding the prior
irreversible state. -/
def makeMove (b : Board) (m : Move) : Board × UndoRecord :=
  let u : UndoRecord :=
    ⟨m.captured, b.castlePerm, b.enPas, b.fiftyMove, b.positionKey⟩
  let movingPiece := b.pieces.getD m.fromSq.toNat EMPTY
  let newCastle := b.castlePerm &&& castleMaskAt m.fromSq &&& castleMaskAt m.toSq
  let newEnPas : Int := if m.flag &&& 2 ≠ 0 then (m.fromSq + m.toSq) / 2 else -1
  let newFifty : Int :=
    if movingPiece = W_PAWN ∨ movingPiece = B_PAWN ∨ m.captured ≠ EMPTY then 0
    else b.fiftyMove + 1
  ({ pieces := makeMovePieces b m
     side := 1 - b.side
     enPas := newEnPas
     fiftyMove := newFifty
     ply := b.ply + 1
     hisPly := b.hisPly + 1
     castlePerm := newCastle
     positionKey := makeMoveKey b m newCastle newEnPas }, u)

/-- Piece-array part of `unmakeMove`: put the prior occupant (the
captured piece, or for en passant nothing) back on the target cell,
return the mover (for a promotion, the pawn) to the source cell, and
restore the en-passant-captured pawn or the castling rook. -/
def unmakeMovePieces (b2 : Board) (m : Move) (u : UndoRecord) (side0 : Nat) :
    List Nat :=
  let f := m.fromSq.toNat
  let t := m.toSq.toNat
  let movedPiece := b2.pieces.getD t EMPTY
  let original := if m.promoted ≠ EMPTY then pawnOf side0 else movedPiece
  let ps1 :=
    (b2.pieces.set t (if m.flag &&& 1 ≠ 0 then EMPTY else u.captured)).set f original
  if m.flag &&& 1 ≠ 0 then
    ps1.set (epCapturedSq m.toSq side0).toNat u.captured
  else if m.flag &&& 4 ≠ 0 then
    (ps1.set (rookToOf m.toSq).toNat EMPTY).set (rookFromOf m.toSq).toNat (rookOf side0)
  else ps1

/-- Modelled from the spec (section 4.3): `unmakeMove(position, move,
undoRecord)` reverses the matching `makeMove`, restoring the prior state
bit for bit, the fingerprint included. -/
def unmakeMove (b2 : Board) (m : Move) (u : UndoRecord) : Board :=
  let side0 := 1 - b2.side
  { pieces := unmakeMovePieces b2 m u side0
    side := side0
    enPas := u.enPas
    fiftyMove := u.fiftyMove
    ply := b2.ply - 1
    hisPly := b2.hisPly - 1
    castlePerm := u.castlePerm
    positionKey := u.positionKey }

/-- Well-formedness of a move against a board, satisfied by every legal
chess move of a well-formed position: the cells are distinct array
indices, the source holds a mover-side piece, the recorded captured
piece is the actual target occupant (for en passant, the actual pawn
behind the target), a promotion starts from a pawn, and special moves
have their standard geometry.  This is what the make/unmake pair needs
to be mutually inverse. -/
def MoveOk (b : Board) (m : Move) : Bool :=
  decide (b.pieces.length = BOARD_SIZE) &&
  decide (b.side = WHITE ∨ b.side = BLACK) &&
  decide (0 ≤ m.fromSq) && decide (m.fromSq < 120) &&
  decide (0 ≤ m.toSq) && decide (m.toSq < 120) &&
  decide (m.fromSq ≠ m.toSq) &&
  decide (pieceAt b m.fromSq ≠ EMPTY) &&
  decide (PieceColor (pieceAt b m.fromSq) = b.side) &&
  (decide (m.promoted = EMPTY) || decide (pieceAt b m.fromSq = pawnOf b.side)) &&
  (if m.flag &&& 1 ≠ 0 then
    decide (m.promoted = EMPTY) && decide (m.flag &&& 4 = 0) &&
    decide (pieceAt b m.toSq = EMPTY) &&
    decide (0 ≤ epCapturedSq m.toSq b.side) &&
    decide (epCapturedSq m.toSq b.side < 120) &&
    decide (epCapturedSq m.toSq b.side ≠ m.fromSq) &&
    decide (epCapturedSq m.toSq b.side ≠ m.toSq) &&
    decide (pieceAt b (epCapturedSq m.toSq b.side) = m.captured) &&
    decide (m.captured = pawnOf (1 - b.side))
  else if m.flag &&& 4 ≠ 0 then
    decide (m.promoted = EMPTY) && decide (m.captured = EMPTY) &&
    decide (pieceAt b m.toSq = EMPTY) &&
    (if b.side = WHITE then
      decide (m.fromSq = 25) && decide (m.toSq = 27 ∨ m.toSq = 23)
    else
      decide (m.fromSq = 95) && decide (m.toSq = 97 ∨ m.toSq = 93)) &&
    decide (pieceAt b (rookFromOf m.toSq) = rookOf b.side) &&
    decide (pieceAt b (rookToOf m.toSq) = EMPTY)
  else decide (m.captured = pieceAt b m.toSq))

/-- Validity of a move sequence under the strict LIFO make/unmake
discipline: each move is well formed on the board reached by making the
moves before it. -/
def SeqOk : Board → List Move → Bool
  | _, [] => true
  | b, m :: ms => MoveOk b m && SeqOk (makeMove b m).1 ms

/-- Application of a move sequence, collecting undo records in push
order: the record of the first move comes first. -/
def makeSeq : Board → List Move → Board × List UndoRecord
  | b, [] => (b, [])
  | b, m :: ms =>
    let r := makeMove b m
    let rest := makeSeq r.1 ms
    (rest.1, r.2 :: rest.2)

/-- Reversal of a move sequence in strict LIFO order: the deepest
(most recent) move is undone first, the head move last. -/
def unmakeSeq : Board → List Move → List UndoRecord → Board
  | b, m :: ms, u :: us => unmakeMove (unmakeSeq b ms us) m u
  | b, _, _ => b

/-- One call of the public position-setup interface: `InitBoard` or
`SetFen` with some (possibly null) FEN argument. -/
inductive SetupOp where
  | init : SetupOp
  | fromFen : Option (List Char) → SetupOp

/-- Application of one setup call to a board. -/
def applySetup (b : Board) : SetupOp → Board
  | .init => InitBoard b
  | .fromFen f => SetFen b f

/-! ## Helper lemmas about cell updates

A make/unmake pair touches at most four distinct cells; these lemmas say
that rewriting each touched cell back to its prior occupant restores the
original array. -/

theorem getD_eq_getElem_of_lt (l : List Nat) (j : Nat) (hj : j < l.length) :
    l.getD j 0 = l[j] :=
  List.getD_eq_getElem l 0 hj

theorem restore_two (l : List Nat) (f t x y : Nat) :
    (((l.set f x).set t y).set t (l.getD t 0)).set f (l.getD f 0) = l := by
  apply List.ext_getElem (by simp)
  intro j hj1 hj2
  simp only [List.getElem_set]
  rcases eq_or_ne f j with rfl | hfj
  · simp [List.getElem?_eq_getElem hj2]
  · rcases eq_or_ne t j with rfl | htj
    · simp [hfj, List.getElem?_eq_getElem hj2]
    · simp [hfj, htj]

theorem restore_two' (l : List Nat) (f t x : Nat) :
    ((l.set f x).set t (l.getD t 0)).set f (l.getD f 0) = l := by
  apply List.ext_getElem (by simp)
  intro j hj1 hj2
  simp only [List.getElem_set]
  rcases eq_or_ne f j with rfl | hfj
  · simp [List.getElem?_eq_getElem hj2]
  · rcases eq_or_ne t j with rfl | htj
    · simp [hfj, List.getElem?_eq_getElem hj2]
    · simp [hfj, htj]

theorem restore_three (l : List Nat) (f t c x y z : Nat) :
    (((((l.set f x).set t y).set c z).set t (l.getD t 0)).set f
        (l.getD f 0)).set c (l.getD c 0) = l := by
  apply List.ext_getElem (by simp)
  intro j hj1 hj2
  simp only [List.getElem_set]
  rcases eq_or_ne c j with rfl | hcj
  · simp [List.getElem?_eq_getElem hj2]
  · rcases eq_or_ne f j with rfl | hfj
    · simp [hcj, List.getElem?_eq_getElem hj2]
    · rcases eq_or_ne t j with rfl | htj
      · simp [hcj, hfj, List.getElem?_eq_getElem hj2]
      · simp [hcj, hfj, htj]

theorem restore_four (l : List Nat) (f t r1 r2 x y z w : Nat) :
    (((((((l.set f x).set t y).set r1 z).set r2 w).set t (l.getD t 0)).set f
        (l.getD f 0)).set r2 (l.getD r2 0)).set r1 (l.getD r1 0) = l := by
  apply List.ext_getElem (by simp)
  intro j hj1 hj2
  simp only [List.getElem_set]
  rcases eq_or_ne r1 j with rfl | h1j
  · simp [List.getElem?_eq_getElem hj2]
  · rcases eq_or_ne r2 j with rfl | h2j
    · simp [h1j, List.getElem?_eq_getElem hj2]
    · rcases eq_or_ne f j with rfl | hfj
      · simp [h1j, h2j, List.getElem?_eq_getElem hj2]
      · rcases eq_or_ne t j with rfl | htj
        · simp [h1j, h2j, hfj, List.getElem?_eq_getElem hj2]
        · simp [h1j, h2j, hfj, htj]

theorem getD_set_self (l : List Nat) (i a : Nat) (h : i < l.length) :
    (l.set i a).getD i 0 = a := by
  rw [List.getD_eq_getElem _ _ (by simpa using h), List.getElem_set]
  simp

theorem getD_set_ne (l : List Nat) (i j a : Nat) (h : i ≠ j) :
    (l.set i a).getD j 0 = l.getD j 0 := by
  rcases Nat.lt_or_ge j l.length with hj | hj
  · rw [List.getD_eq_getElem _ _ (by simpa using hj), List.getD_eq_getElem _ _ hj,
      List.getElem_set]
    simp [h]
  · rw [List.getD_eq_default _ _ (by simpa using hj), List.getD_eq_default _ _ hj]

theorem getTTD_set_self (l : List TTEntry) (i : Nat) (e : TTEntry)
    (h : i < l.length) : (l.set i e).getD i zeroEntry = e := by
  rw [List.getD_eq_getElem _ _ (by simpa using h), List.getElem_set]
  simp

/-- Single-step inversion of the spec-modelled transition engine:
unmaking the move just made restores the exact prior board, the
fingerprint included. -/
theorem unmakeMove_makeMove (b : Board) (m : Move) (h : MoveOk b m = true) :
    unmakeMove (makeMove b m).1 m (makeMove b m).2 = b := by
  simp only [MoveOk, Bool.and_eq_true, Bool.or_eq_true, decide_eq_true_eq, and_assoc] at h
  obtain ⟨hlen, hside, hf0, hf120, ht0, ht120, hft, hne0, hcol, hpromo, hflags⟩ := h
  simp only [BOARD_SIZE] at hlen
  simp only [WHITE, BLACK] at hside
  have hsideeq : 1 - (1 - b.side) = b.side := by omega
  have hfn : m.fromSq.toNat < b.pieces.length := by rw [hlen]; omega
  have htn : m.toSq.toNat < b.pieces.length := by rw [hlen]; omega
  have hftn : m.fromSq.toNat ≠ m.toSq.toNat := by omega
  apply Board.ext
  · -- pieces
    by_cases hep : m.flag &&& 1 = 0
    · by_cases hca : m.flag &&& 4 = 0
      · -- normal move (possibly promotion, possibly plain capture)
        simp [hep, hca] at hflags
        simp [makeMove, unmakeMove, unmakeMovePieces, makeMovePieces, pieceAt, EMPTY,
          hsideeq, hep, hca]
        have hMt : (((b.pieces.set m.fromSq.toNat 0).set m.toSq.toNat
            (if m.promoted = 0 then b.pieces[m.fromSq.toNat]?.getD 0 else
              m.promoted))[m.toSq.toNat]?).getD 0
            = (if m.promoted = 0 then b.pieces[m.fromSq.toNat]?.getD 0 else m.promoted) := by
          rw [← List.getD_eq_getElem?_getD]
          exact getD_set_self _ _ _ (by simpa using htn)
        rw [hMt]
        have hT : pieceAt b m.toSq = b.pieces.getD m.toSq.toNat 0 := rfl
        have hF : pieceAt b m.fromSq = b.pieces.getD m.fromSq.toNat 0 := rfl
        by_cases hpr : m.promoted = 0
        · rw [if_pos hpr, if_pos hpr, hflags, hT, ← List.getD_eq_getElem?_getD]
          exact restore_two' b.pieces m.fromSq.toNat m.toSq.toNat 0
        · have hpf : pieceAt b m.fromSq = pawnOf b.side :=
            hpromo.resolve_left (by simpa [EMPTY] using hpr)
          rw [if_neg hpr, hflags, hT, ← hpf, hF]
          exact restore_two' b.pieces m.fromSq.toNat m.toSq.toNat 0
      · -- castling
        rcases hside with hs | hs
        · simp [hep, hca, hs, WHITE] at hflags
          obtain ⟨⟨⟨⟨⟨hpr0, hcap0⟩, htE⟩, hfv, hts⟩, hrf⟩, hrt⟩ := hflags
          rcases hts with htv | htv
          · -- white kingside
            simp [makeMove, unmakeMove, unmakeMovePieces, makeMovePieces, pieceAt, EMPTY,
              hsideeq, hep, hca, hs, hfv, htv, hpr0, hcap0, rookFromOf, rookToOf, rookOf,
              WHITE, W_ROOK, B_ROOK]
            have hlen2 : (27 : Nat) < ((b.pieces.set 25 0)).length := by simp [hlen]
            have horig : (((b.pieces.set 25 0).set 27 (b.pieces[25]?.getD 0))[27]?).getD 0
                = b.pieces.getD 25 0 := by
              rw [← List.getD_eq_getElem?_getD, getD_set_self _ _ _ hlen2,
                ← List.getD_eq_getElem?_getD]
            have ht' : b.pieces.getD 27 0 = 0 := by rw [htv] at htE; exact htE
            have hr2' : b.pieces.getD 26 0 = 0 := by rw [htv] at hrt; exact hrt
            have hr1' : b.pieces.getD 28 0 = 4 := by rw [htv] at hrf; exact hrf
            have R := restore_four b.pieces 25 27 28 26 0 (b.pieces[25]?.getD 0) 0 4
            rw [ht', hr2', hr1', ← horig] at R
            exact R
          · -- white queenside
            simp [makeMove, unmakeMove, unmakeMovePieces, makeMovePieces, pieceAt, EMPTY,
              hsideeq, hep, hca, hs, hfv, htv, hpr0, hcap0, rookFromOf, rookToOf, rookOf,
              WHITE, W_ROOK, B_ROOK]
            have hlen2 : (23 : Nat) < ((b.pieces.set 25 0)).length := by simp [hlen]
            have horig : (((b.pieces.set 25 0).set 23 (b.pieces[25]?.getD 0))[23]?).getD 0
                = b.pieces.getD 25 0 := by
              rw [← List.getD_eq_getElem?_getD, getD_set_self _ _ _ hlen2,
                ← List.getD_eq_getElem?_getD]
            have ht' : b.pieces.getD 23 0 = 0 := by rw [htv] at htE; exact htE
            have hr2' : b.pieces.getD 24 0 = 0 := by rw [htv] at hrt; exact hrt
            have hr1' : b.pieces.getD 21 0 = 4 := by rw [htv] at hrf; exact hrf
            have R := restore_four b.pieces 25 23 21 24 0 (b.pieces[25]?.getD 0) 0 4
            rw [ht', hr2', hr1', ← horig] at R
            exact R
        · simp [hep, hca, hs, WHITE] at hflags
          obtain ⟨⟨⟨⟨⟨hpr0, hcap0⟩, htE⟩, hfv, hts⟩, hrf⟩, hrt⟩ := hflags
          rcases hts with htv | htv
          · -- black kingside
            simp [makeMove, unmakeMove, unmakeMovePieces, makeMovePieces, pieceAt, EMPTY,
              hsideeq, hep, hca, hs, hfv, htv, hpr0, hcap0, rookFromOf, rookToOf, rookOf,
              WHITE, W_ROOK, B_ROOK]
            have hlen2 : (97 : Nat) < ((b.pieces.set 95 0)).length := by simp [hlen]
            have horig : (((b.pieces.set 95 0).set 97 (b.pieces[95]?.getD 0))[97]?).getD 0
                = b.pieces.getD 95 0 := by
              rw [← List.getD_eq_getElem?_getD, getD_set_self _ _ _ hlen2,
                ← List.getD_eq_getElem?_getD]
            have ht' : b.pieces.getD 97 0 = 0 := by rw [htv] at htE; exact htE
            have hr2' : b.pieces.getD 96 0 = 0 := by rw [htv] at hrt; exact hrt
            have hr1' : b.pieces.getD 98 0 = 10 := by rw [htv] at hrf; exact hrf
            have R := restore_four b.pieces 95 97 98 96 0 (b.pieces[95]?.getD 0) 0 10
            rw [ht', hr2', hr1', ← horig] at R
            exact R
          · -- black queenside
            simp [makeMove, unmakeMove, unmakeMovePieces, makeMovePieces, pieceAt, EMPTY,
              hsideeq, hep, hca, hs, hfv, htv, hpr0, hcap0, rookFromOf, rookToOf, rookOf,
              WHITE, W_ROOK, B_ROOK]
            have hlen2 : (93 : Nat) < ((b.pieces.set 95 0)).length := by simp [hlen]
            have horig : (((b.pieces.set 95 0).set 93 (b.pieces[95]?.getD 0))[93]?).getD 0
                = b.pieces.getD 95 0 := by
              rw [← List.getD_eq_getElem?_getD, getD_set_self _ _ _ hlen2,
                ← List.getD_eq_getElem?_getD]
            have ht' : b.pieces.getD 93 0 = 0 := by rw [htv] at htE; exact htE
            have hr2' : b.pieces.getD 94 0 = 0 := by rw [htv] at hrt; exact hrt
            have hr1' : b.pieces.getD 91 0 = 10 := by rw [htv] at hrf; exact hrf
            have R := restore_four b.pieces 95 93 91 94 0 (b.pieces[95]?.getD 0) 0 10
            rw [ht', hr2', hr1', ← horig] at R
            exact R
    · -- en passant
      rw [if_pos hep] at hflags
      simp only [Bool.and_eq_true, decide_eq_true_eq] at hflags
      obtain ⟨⟨⟨⟨⟨⟨⟨⟨hpr0, hca0⟩, htE⟩, hc0⟩, hc120⟩, hcf⟩, hct⟩, hcc⟩, hcp⟩ := hflags
      have hep2 : m.flag % 2 = 1 := by
        have h1 := hep
        rw [Nat.and_one_is_mod] at h1
        omega
      simp [makeMove, unmakeMove, unmakeMovePieces, makeMovePieces, pieceAt, EMPTY,
        hsideeq, hep, hep2, hpr0]
      have hcn : (epCapturedSq m.toSq b.side).toNat ≠ m.toSq.toNat := by omega
      have hlen2 : m.toSq.toNat < ((b.pieces.set m.fromSq.toNat 0)).length := by
        simp [hlen]
        omega
      have horig : ((((b.pieces.set m.fromSq.toNat 0).set m.toSq.toNat
          (b.pieces[m.fromSq.toNat]?.getD 0)).set
            (epCapturedSq m.toSq b.side).toNat 0)[m.toSq.toNat]?).getD 0
          = b.pieces.getD m.fromSq.toNat 0 := by
        rw [← List.getD_eq_getElem?_getD, getD_set_ne _ _ _ _ hcn,
          getD_set_self _ _ _ hlen2, ← List.getD_eq_getElem?_getD]
      have ht0' : b.pieces.getD m.toSq.toNat 0 = 0 := htE
      have hc' : b.pieces.getD (epCapturedSq m.toSq b.side).toNat 0 = m.captured := hcc
      have R := restore_three b.pieces m.fromSq.toNat m.toSq.toNat
        (epCapturedSq m.toSq b.side).toNat 0 (b.pieces[m.fromSq.toNat]?.getD 0) 0
      rw [ht0', hc', ← horig] at R
      exact R
  · -- side
    simp only [makeMove, unmakeMove]
    omega
  · -- enPas
    simp only [makeMove, unmakeMove]
  · -- fiftyMove
    simp only [makeMove, unmakeMove]
  · -- ply
    simp only [makeMove, unmakeMove]
    omega
  · -- hisPly
    simp only [makeMove, unmakeMove]
    omega
  · -- castlePerm
    simp only [makeMove, unmakeMove]
  · -- positionKey
    simp only [makeMove, unmakeMove]

/-! ## Claim theorems -/

set_option maxRecDepth 100000 in
/-- C1: the spec requires perft(start, 1) = 20 — i.e. `GenerateAllMoves`
on the standard starting position yields exactly 20 moves (legality
filtering removes nothing there).  The code instead yields 74
pseudo-legal moves, because `IsOnBoard` accepts every index 0..119 and
`InitBoard`/`SetFen` leave the border cells `EMPTY` rather than holding
an off-board sentinel, so knights, king and sliders walk onto and
through the border.  This theorem evaluates the embedded generator at
the failing input. -/
theorem generateAllMoves_start_count :
    (GenerateAllMoves startBoard).length = 74 ∧
    (GenerateAllMoves startBoard).length ≠ 20 := by
  decide

set_option maxRecDepth 100000 in
/-- C3: a position whose pieces all lie in the playable 8x8 region for
which `GenerateAllMoves` nevertheless emits a move whose target is a
border cell (knight b1, cell 22, to border cell 1), refuting the claim
that all generated moves stay inside the playable region. -/
theorem generateAllMoves_offboard_target :
    piecesPlayable startBoard = true ∧
    (⟨22, 1, EMPTY, EMPTY, 0⟩ : Move) ∈ GenerateAllMoves startBoard ∧
    playableSq 1 = false := by
  decide

/-- C2: for every position and every LIFO sequence of well-formed
(in particular, legal) moves, making the moves and then unmaking them in
reverse order restores the starting position byte for byte, the
`positionKey` fingerprint included.  `MakeMove`/`unmakeMove` are called
but not defined in the sources, so the pair is modelled from the spec
(section 4.3); `MoveOk` holds for every legal chess move of a
well-formed position. -/
theorem makeMove_unmakeMove_lifo_roundtrip (b : Board) (ms : List Move)
    (h : SeqOk b ms = true) :
    unmakeSeq (makeSeq b ms).1 ms (makeSeq b ms).2 = b := by
  induction ms generalizing b with
  | nil => rfl
  | cons m ms ih =>
    simp only [SeqOk, Bool.and_eq_true] at h
    obtain ⟨h1, h2⟩ := h
    simp only [makeSeq, unmakeSeq]
    rw [ih (makeMove b m).1 h2]
    exact unmakeMove_makeMove b m h1

set_option maxRecDepth 100000 in
/-- C2 witness: the double pushes 1.e4 e5 from the starting position,
made and unmade in LIFO order, restore the starting position exactly. -/
theorem makeMove_unmakeMove_lifo_roundtrip_witness :
    SeqOk startBoard [⟨35, 55, 0, 0, 2⟩, ⟨85, 65, 0, 0, 2⟩] = true ∧
    unmakeSeq (makeSeq startBoard [⟨35, 55, 0, 0, 2⟩, ⟨85, 65, 0, 0, 2⟩]).1
      [⟨35, 55, 0, 0, 2⟩, ⟨85, 65, 0, 0, 2⟩]
      (makeSeq startBoard [⟨35, 55, 0, 0, 2⟩, ⟨85, 65, 0, 0, 2⟩]).2 = startBoard :=
  ⟨by decide, makeMove_unmakeMove_lifo_roundtrip startBoard _ (by decide)⟩

/-- A minimal position where every castling precondition of the spec
holds for white kingside: king e1, rook h1, the right is held, f1/g1
empty, and e1/f1/g1 unattacked (black has only the king on e8). -/
def castleBoard : Board :=
  SetFen initState (some ("4k3/8/8/8/8/8/8/4K2R w K - 0 1").toList)

set_option maxRecDepth 100000 in
/-- C4: on `castleBoard` every condition the claim states for including
the white-kingside castling move holds — the right is held, the cells
between king and rook are empty, and the king start/transit/landing
cells are unattacked — yet `GenerateAllMoves` contains no castling move
at all: no move carries the castling flag and no move plays the king
from e1 (cell 25) to g1 (cell 27), because `GenerateCastling` is an
empty stub. -/
theorem castling_never_generated :
    castleBoard.castlePerm &&& WKCA ≠ 0 ∧
    pieceAt castleBoard 25 = W_KING ∧ pieceAt castleBoard 28 = W_ROOK ∧
    pieceAt castleBoard 26 = EMPTY ∧ pieceAt castleBoard 27 = EMPTY ∧
    IsSquareAttacked castleBoard 25 BLACK = false ∧
    IsSquareAttacked castleBoard 26 BLACK = false ∧
    IsSquareAttacked castleBoard 27 BLACK = false ∧
    (∀ mv ∈ GenerateAllMoves castleBoard, mv.flag &&& 4 = 0) ∧
    (∀ mv ∈ GenerateAllMoves castleBoard, ¬(mv.fromSq = 25 ∧ mv.toSq = 27)) := by
  decide

/-- A one-slot table holding a key-1 entry of depth 5, for exercising
the replacement policy. -/
def ttDepth5 : TransTable := ⟨[⟨1, 5, 77, 0, zeroMove, 3⟩], 0, 0⟩

/-- C5 counterexample: the slot holds a different fingerprint (1, not 2)
whose stored depth (5) is not strictly shallower than the incoming depth
(5), so the claim says the entry is kept and the table unchanged; the
code overwrites, because its test is `depth >= entry->depth`. -/
theorem storeHashEntry_equal_depth_overwrites :
    (ttDepth5.entries.getD (2 % ttDepth5.entries.length) zeroEntry).key ≠ 2 ∧
    ¬((ttDepth5.entries.getD (2 % ttDepth5.entries.length) zeroEntry).depth < 5) ∧
    StoreHashEntry ttDepth5 2 5 99 0 zeroMove ≠ ttDepth5 := by
  decide

/-- C5 amended: `StoreHashEntry` overwrites the slot selected by
fingerprint-modulo-capacity if and only if the slot is zero-keyed
(empty), holds the same fingerprint, or holds a stored depth less than
OR EQUAL to the incoming depth; only when a different-fingerprint entry
is STRICTLY deeper is the table left unchanged. -/
theorem storeHashEntry_replacement_policy (tt : TransTable) (key : Nat)
    (depth score flag : Int) (mv : Move) (hne : tt.entries.length ≠ 0) :
    ((tt.entries.getD (key % tt.entries.length) zeroEntry).key = 0 ∨
     (tt.entries.getD (key % tt.entries.length) zeroEntry).key = key ∨
     (tt.entries.getD (key % tt.entries.length) zeroEntry).depth ≤ depth →
      StoreHashEntry tt key depth score flag mv =
        { tt with
            entries := tt.entries.set (key % tt.entries.length)
              ⟨key, depth, score, flag, mv, tt.age⟩
            newWrite := tt.newWrite + 1 }) ∧
    ((tt.entries.getD (key % tt.entries.length) zeroEntry).key ≠ 0 →
     (tt.entries.getD (key % tt.entries.length) zeroEntry).key ≠ key →
     depth < (tt.entries.getD (key % tt.entries.length) zeroEntry).depth →
      StoreHashEntry tt key depth score flag mv = tt) := by
  constructor
  · intro hw
    unfold StoreHashEntry
    rw [if_neg hne, if_pos]
    rcases hw with hw | hw | hw
    · exact Or.inl hw
    · exact Or.inr (Or.inl hw)
    · exact Or.inr (Or.inr hw)
  · intro h1 h2 h3
    unfold StoreHashEntry
    rw [if_neg hne, if_neg]
    push_neg
    exact ⟨h1, h2, by omega⟩

/-- C5 witness: storing the same fingerprint back into the one-slot
table rewrites the slot and bumps the write counter. -/
theorem storeHashEntry_replacement_policy_witness :
    (StoreHashEntry ttDepth5 1 7 50 0 zeroMove).newWrite = ttDepth5.newWrite + 1 := by
  rw [(storeHashEntry_replacement_policy ttDepth5 1 7 50 0 zeroMove (by decide)).1
    (Or.inr (Or.inl (by decide)))]

/-- A one-slot table holding a key-1 entry of depth 10, against which a
shallow different-key store is a no-op. -/
def ttDepth10 : TransTable := ⟨[⟨1, 10, 77, 0, zeroMove, 0⟩], 0, 0⟩

/-- C6 counterexample: storing fingerprint 2 at depth 1 into a table
whose selected slot holds a deeper different-fingerprint entry is a
no-op, so the immediately following probe with the same fingerprint and
depth requirement 1 ≤ 1 misses, although the claim promises success for
every table state. -/
theorem store_probe_roundtrip_can_miss :
    (1 : Int) ≤ 1 ∧
    ProbeHashEntry (StoreHashEntry ttDepth10 2 1 55 0 zeroMove) 2 1 = none := by
  decide

/-- C6 amended: when the store actually writes — the selected slot is
zero-keyed, holds the same fingerprint, or holds a depth not exceeding
the incoming one — probing the same fingerprint with any depth
requirement at most the stored depth returns the stored score and move
unchanged. -/
theorem store_probe_roundtrip_when_written (tt : TransTable) (key : Nat)
    (depth score flag : Int) (mv : Move) (pd : Int)
    (hne : tt.entries.length ≠ 0) (hpd : pd ≤ depth)
    (hw : (tt.entries.getD (key % tt.entries.length) zeroEntry).key = 0 ∨
      (tt.entries.getD (key % tt.entries.length) zeroEntry).key = key ∨
      (tt.entries.getD (key % tt.entries.length) zeroEntry).depth ≤ depth) :
    ProbeHashEntry (StoreHashEntry tt key depth score flag mv) key pd =
      some (score, mv) := by
  have hidx : key % tt.entries.length < tt.entries.length :=
    Nat.mod_lt _ (Nat.pos_of_ne_zero hne)
  have hstore : StoreHashEntry tt key depth score flag mv =
      { tt with
          entries := tt.entries.set (key % tt.entries.length)
            ⟨key, depth, score, flag, mv, tt.age⟩
          newWrite := tt.newWrite + 1 } := by
    unfold StoreHashEntry
    rw [if_neg hne, if_pos]
    rcases hw with hw | hw | hw
    · exact Or.inl hw
    · exact Or.inr (Or.inl hw)
    · exact Or.inr (Or.inr hw)
  rw [hstore]
  unfold ProbeHashEntry
  simp only [List.length_set]
  rw [if_neg hne, getTTD_set_self _ _ _ hidx, if_pos ⟨rfl, hpd⟩]

/-- C6 witness: store then probe on a freshly allocated four-slot
table. -/
theorem store_probe_roundtrip_when_written_witness :
    ProbeHashEntry
      (StoreHashEntry (InitTranspositionTable ⟨[], 0, 0⟩ true 4) 9 3 42 1 zeroMove)
      9 2 = some (42, zeroMove) :=
  store_probe_roundtrip_when_written (InitTranspositionTable ⟨[], 0, 0⟩ true 4)
    9 3 42 1 zeroMove 2 (by decide) (by decide) (Or.inl (by decide))

/-- C7: when the allocation fails, `InitTranspositionTable` leaves a
zero-entry table, after which every `StoreHashEntry` is a no-op and
every `ProbeHashEntry` reports a miss — the no-cache degradation the
spec requires. -/
theorem transposition_alloc_failure_degrades (tt : TransTable) (size : Nat)
    (key : Nat) (depth score flag : Int) (mv : Move) (pd : Int) :
    (InitTranspositionTable tt false size).entries.length = 0 ∧
    StoreHashEntry (InitTranspositionTable tt false size) key depth score flag mv =
      InitTranspositionTable tt false size ∧
    ProbeHashEntry (InitTranspositionTable tt false size) key pd = none := by
  refine ⟨rfl, ?_, ?_⟩ <;> simp [InitTranspositionTable, StoreHashEntry, ProbeHashEntry]

/-- C8: `SetFen` first resets to the initialized default (hence is
independent of the previous board contents), leaves a null or empty
input at the default, and consumes the six FEN fields strictly left to
right: each field present in the token list is applied, and every field
whose token is missing keeps its initialized default (side white, no
castling, no en passant, zero clocks). -/
theorem setFen_left_to_right_defaults (b b' : Board) (fen : List Char) :
    SetFen b none = initState ∧
    (fen.length < 1 → SetFen b (some fen) = initState) ∧
    SetFen b (some fen) = SetFen b' (some fen) ∧
    (fenTokens fen = [] → SetFen b (some fen) = initState) ∧
    ((fenTokens fen).length < 2 → (SetFen b (some fen)).side = WHITE) ∧
    ((fenTokens fen).length < 3 → (SetFen b (some fen)).castlePerm = 0) ∧
    ((fenTokens fen).length < 4 → (SetFen b (some fen)).enPas = -1) ∧
    ((fenTokens fen).length < 5 → (SetFen b (some fen)).fiftyMove = 0) ∧
    ((fenTokens fen).length < 6 → (SetFen b (some fen)).hisPly = 0) ∧
    (∀ t, (fenTokens fen).get? 0 = some t →
      (SetFen b (some fen)).pieces = placeLoop t 7 0 initState.pieces) ∧
    (∀ t, (fenTokens fen).get? 1 = some t →
      (SetFen b (some fen)).side = parseSide t) ∧
    (∀ t, (fenTokens fen).get? 2 = some t →
      (SetFen b (some fen)).castlePerm = parseCastle t) ∧
    (∀ t, (fenTokens fen).get? 3 = some t →
      (SetFen b (some fen)).enPas = parseEnPas t) ∧
    (∀ t, (fenTokens fen).get? 4 = some t →
      (SetFen b (some fen)).fiftyMove = atoiModel t) ∧
    (∀ t1 t5, (fenTokens fen).get? 1 = some t1 → (fenTokens fen).get? 5 = some t5 →
      (SetFen b (some fen)).hisPly =
        (if parseSide t1 = BLACK then (atoiModel t5 - 1) * 2 + 1
         else (atoiModel t5 - 1) * 2)) := by
  by_cases hl : fen.length < 1
  · have hfen : fen = [] := List.eq_nil_of_length_eq_zero (by omega)
    subst hfen
    refine ⟨rfl, fun _ => rfl, rfl, fun _ => rfl, ?_, ?_, ?_, ?_, ?_, ?_, ?_, ?_, ?_,
      ?_, ?_⟩ <;> simp [SetFen, fenTokens, tokenize, InitBoard, initState, WHITE]
  · rcases hts : fenTokens fen with _ | ⟨t1, _ | ⟨t2, _ | ⟨t3, _ | ⟨t4, _ | ⟨t5,
      _ | ⟨t6, rest⟩⟩⟩⟩⟩⟩ <;>
      refine ⟨rfl, fun h => absurd h hl, ?_, ?_, ?_, ?_, ?_, ?_, ?_, ?_, ?_, ?_, ?_,
        ?_, ?_⟩ <;>
      simp [SetFen, hl, hts, InitBoard, initState, WHITE, BLACK]

/-- C8 witness: a two-field FEN (placement and side) applied through the
theorem — the castling field was missing, so the rights stay at the
initialized default 0. -/
theorem setFen_left_to_right_defaults_witness :
    (SetFen initState (some (("8/8/8/8/8/8/8/8 b").toList))).castlePerm = 0 :=
  (setFen_left_to_right_defaults initState initState
    (("8/8/8/8/8/8/8/8 b").toList)).2.2.2.2.2.1 (by decide)

set_option maxRecDepth 100000 in
/-- C9: the claim says `Quiescence` evaluates the static score first and
returns `beta` when the stand-pat value meets or exceeds it.  At the
starting position the static score is 0, which meets `beta = -5`, yet
`Quiescence` returns 0, not `beta`: its body is the placeholder
`return 0` and never consults the evaluation or the window. -/
theorem quiescence_ignores_stand_pat :
    EvaluatePosition startBoard = 0 ∧
    (-5 : Int) ≤ EvaluatePosition startBoard ∧
    Quiescence startBoard (-10) (-5) = 0 ∧
    Quiescence startBoard (-10) (-5) ≠ -5 := by
  decide

theorem setFen_positionKey_zero (b : Board) (f : Option (List Char)) :
    (SetFen b f).positionKey = 0 := by
  rcases f with _ | cs
  · rfl
  · by_cases hl : cs.length < 1
    · simp [SetFen, hl, InitBoard, initState]
    · rcases hts : fenTokens cs with _ | ⟨t1, _ | ⟨t2, _ | ⟨t3, _ | ⟨t4, _ | ⟨t5,
        _ | ⟨t6, rest⟩⟩⟩⟩⟩⟩ <;>
        simp [SetFen, hl, hts, InitBoard, initState]

/-- C10: every position produced through the public setup interface
carries fingerprint 0: `InitBoard` zeroes `positionKey` and `SetFen`
never computes or updates it, so any nonempty sequence of setup calls
leaves `positionKey = 0` regardless of the position content — every
position presents the same key to the transposition table. -/
theorem setup_positionKey_always_zero (b : Board) (ops : List SetupOp)
    (h : ops ≠ []) : (ops.foldl applySetup b).positionKey = 0 := by
  induction ops generalizing b with
  | nil => exact absurd rfl h
  | cons op ops ih =>
    rcases ops with _ | ⟨op2, ops2⟩
    · rcases op with _ | f
      · rfl
      · exact setFen_positionKey_zero b f
    · rw [List.foldl_cons]
      exact ih (applySetup b op) (by simp)

set_option maxRecDepth 100000 in
/-- C10 witness: loading the full starting FEN still leaves the
fingerprint at 0. -/
theorem setup_positionKey_always_zero_witness :
    (([SetupOp.fromFen
        (some (("rnbqkbnr/pppppppp/8/8/8/8/PPPPPPPP/RNBQKBNR w KQkq - 0 1").toList))] :
      List SetupOp).foldl applySetup initState).positionKey = 0 :=
  setup_positionKey_always_zero initState _ (by simp)

end Bear


